import Mathlib

/-!
Shallow embedding of the StudyBreak trivia server (`src/server.js`, the
active definitions starting at line 923) together with proofs about the
room-session orchestrator: answer buffering and scoring, question
sequencing, the inactivity gate, pause/resume, host reassignment, room
teardown and the timer-control guards.

Conventions of the embedding:
* socket ids and question ids are `Nat` (the JS strings/uuids are opaque
  identifiers; only equality is ever used on them);
* wall-clock instants (`Date.now()`, `room.breakEndTime`) are `Int`
  milliseconds passed explicitly;
* `room.currentQuestionIndex` is an `Int` because the source initialises
  it to `-1`;
* every `io.to(roomId).emit(...)` becomes an `Event` in the returned
  event list, in emission order; payloads irrelevant to every claim
  (usernames, question texts, winner details) are projected away;
* a `setInterval`/`setTimeout` handle becomes a `Nat` handle supplied by
  the caller (`fresh`); functions return the handle they register and
  the handles they `clearInterval`.
-/

namespace StudyBreak

/-- `room.currentMode`: the source uses the strings `'study'` and `'trivia'`. -/
inductive Mode where
  | study
  | trivia
  deriving Repr, DecidableEq

/-- `room.settings` as used by the handlers: `studyTime` and `breakTime` in seconds. -/
structure Settings where
  studyTime : Nat
  breakTime : Nat
  deriving Repr, DecidableEq

/-- A member of `room.participants` (created in `create-room` / `join-room`). -/
structure Participant where
  id : Nat
  username : String
  isHost : Bool
  score : Nat
  deriving Repr, DecidableEq

/-- A trivia question as produced by `generateTriviaQuestions` /
`getPredefinedTriviaQuestions`. -/
structure Question where
  id : Nat
  text : String
  options : List String
  correctIndex : Nat
  timeLimit : Nat
  deriving Repr, DecidableEq

/-- An entry of `room.pendingAnswers`, pushed by the `submit-answer` handler. -/
structure PendingAnswer where
  userId : Nat
  answerIndex : Nat
  timeRemaining : Nat
  questionId : Nat
  deriving Repr, DecidableEq

/-- The per-room record stored in `activeRooms` (fields the claims touch). -/
structure Room where
  host : Nat
  participants : List Participant
  settings : Settings
  currentMode : Mode
  timerValue : Int
  timerRunning : Bool
  timerInterval : Option Nat
  breakTimerInterval : Option Nat
  breakEndTime : Option Int
  triviaQuestions : List Question
  nextBatchQuestions : Option (List Question)
  currentQuestionIndex : Int
  pendingAnswers : List PendingAnswer
  inactivityCount : Nat
  triviaPaused : Bool
  resumingFromInactivity : Bool
  questionHasActivity : Bool
  isRegeneratingQuestions : Bool
  triviaTimeLimit : Nat
  deriving Repr, DecidableEq

/-- Room-scoped broadcasts and per-socket replies, plus the asynchronous
actions the handlers schedule (`setTimeout`/background generation),
recorded in emission order. -/
inductive Event where
  | timerUpdate (timeLeft : Int) (isRunning : Bool)
  | modeChanged (m : Mode)
  | triviaMessage (kind msg : String)
  | newQuestion (qid : Nat) (timeLimit : Nat)
  | questionTimerUpdate (t : Int)
  | questionEnded (correctIndex : Nat)
  | scoreUpdate (scores : List (Nat × Nat))
  | answerReceived (qid aidx : Nat)
  | roomUpdated
  | sessionEnded
  | startPrefetch
  | scheduleAdvance
  | startSession
  deriving Repr, DecidableEq

/-- `getPredefinedTriviaQuestions('general')` (server.js:2148): the five
general-knowledge fallback questions, default `timeLimit` 10.  The uuids
are rendered as the opaque ids 9001–9005. -/
def fallbackQuestions : List Question :=
  [ { id := 9001, text := "What is the capital of France?",
      options := ["London", "Berlin", "Paris", "Madrid"],
      correctIndex := 2, timeLimit := 10 },
    { id := 9002, text := "Which planet is closest to the Sun?",
      options := ["Venus", "Mercury", "Mars", "Earth"],
      correctIndex := 1, timeLimit := 10 },
    { id := 9003, text := "What is the chemical symbol for gold?",
      options := ["Go", "Gd", "Au", "Ag"],
      correctIndex := 2, timeLimit := 10 },
    { id := 9004, text := "How many sides does a hexagon have?",
      options := ["5", "6", "7", "8"],
      correctIndex := 1, timeLimit := 10 },
    { id := 9005, text := "What is the largest ocean on Earth?",
      options := ["Atlantic", "Indian", "Arctic", "Pacific"],
      correctIndex := 3, timeLimit := 10 } ]

/-- `room.breakEndTime && Date.now() >= room.breakEndTime` (server.js:1668).
`breakEndTime` is an epoch-millisecond stamp, so the JS truthiness guard
only excludes the `null` case, which `none` models. -/
def breakOver (now : Int) (room : Room) : Bool :=
  match room.breakEndTime with
  | none => false
  | some e => decide (e ≤ now)

/-- `Math.max(0, Math.floor((room.breakEndTime - Date.now()) / 1000))`
(server.js:1715).  A `null` deadline behaves like `0 - now`, clamped to 0
for any `now ≥ 0`; after the `max 0` clamp JS floor division and Lean's
truncated `Int` division agree. -/
def timeLeftSec (now : Int) (room : Room) : Int :=
  max 0 ((room.breakEndTime.getD 0 - now) / 1000)

/-- `room.triviaQuestions[room.currentQuestionIndex]`: `undefined` (here
`none`) for a negative or out-of-range index. -/
def questionAt (room : Room) : Option Question :=
  if room.currentQuestionIndex < 0 then none
  else room.triviaQuestions.get? room.currentQuestionIndex.toNat

/-- `Math.ceil(answer.timeRemaining * (20 / currentQuestion.timeLimit))`
(server.js:1872), evaluated in exact arithmetic: the ceiling of
`timeRemaining * 20 / timeLimit`.  (For `timeLimit = 0` the JS expression
is `Infinity`; this total model returns 0 there, and every theorem about
scoring assumes a positive time limit.) -/
def pointsEarned (timeRemaining timeLimit : Nat) : Nat :=
  (timeRemaining * 20 + timeLimit - 1) / timeLimit

/-- `const participant = room.participants.find(p => p.id === answer.userId);
if (participant) participant.score += pointsEarned` (server.js:1869):
add `pts` to the first participant whose id is `uid`, if any. -/
def addScore : List Participant → Nat → Nat → List Participant
  | [], _, _ => []
  | p :: ps, uid, pts =>
      if p.id = uid then { p with score := p.score + pts } :: ps
      else p :: addScore ps uid pts

/-- The score of the first participant with id `uid` (JS `find`). -/
def scoreOf (ps : List Participant) (uid : Nat) : Option Nat :=
  (ps.find? fun p => p.id = uid).map fun p => p.score

/-- The answer-resolution block run when the per-question countdown
reaches zero and both the room and the current question still exist
(server.js:1855–1902): reveal the answer, award
`pointsEarned` to the submitter of every pending answer matching
`correctIndex`, update the inactivity counter, clear `pendingAnswers`,
broadcast scores and schedule the next `AdvanceQuestion`. -/
def resolveQuestion (room : Room) (cq : Question) : Room × List Event :=
  let correctAnswers :=
    room.pendingAnswers.filter fun a => a.answerIndex = cq.correctIndex
  let participants' :=
    correctAnswers.foldl
      (fun ps a => addScore ps a.userId (pointsEarned a.timeRemaining cq.timeLimit))
      room.participants
  let inactive := room.pendingAnswers.isEmpty
  let r' := { room with
      participants := participants'
      inactivityCount := if inactive then room.inactivityCount + 1 else 0
      questionHasActivity := if inactive then room.questionHasActivity else true
      pendingAnswers := [] }
  (r', [Event.questionEnded cq.correctIndex,
        Event.scoreUpdate (participants'.map fun p => (p.id, p.score)),
        Event.scheduleAdvance])

/-- The expiry body of the question interval (server.js:1842–1906): the
registry (`activeRooms[roomId]`) may no longer hold the room, and the
question at the recorded index may be gone; either way the handler
returns without further effect. -/
def questionTimerExpiry (reg : Option Room) : Option Room × List Event :=
  match reg with
  | none => (none, [])
  | some room =>
      match questionAt room with
      | none => (some room, [])
      | some cq =>
          let (r', ev) := resolveQuestion room cq
          (some r', ev)

/-- One tick of the per-question `setInterval` (server.js:1833–1908):
decrement, broadcast the countdown unconditionally, and when the counter
reaches zero clear the interval (the returned `Bool`) and run the expiry
body against the registry. -/
def questionIntervalTick (reg : Option Room) (questionTimer : Int) :
    Int × Option Room × List Event × Bool :=
  let t := questionTimer - 1
  if t ≤ 0 then
    let (r, ev) := questionTimerExpiry reg
    (t, r, Event.questionTimerUpdate t :: ev, true)
  else (t, reg, [Event.questionTimerUpdate t], false)

/-- The `submit-answer` handler (server.js:1342–1480) for an existing
room.  Returns the new room, the emitted events, and whether the
paused-resume `setTimeout` was scheduled.  While `triviaPaused` the
answer is not validated, not buffered and not scored: the handler only
flips the resume flags, acknowledges, and schedules `resumeAfterPause`.
Otherwise a submission matching the live question's id is appended to
`pendingAnswers`; anything else is ignored. -/
def submitAnswer (sid qid aidx trem : Nat) (room : Room) :
    Room × List Event × Bool :=
  if room.currentMode ≠ Mode.trivia then (room, [], false)
  else if room.triviaPaused then
    ({ room with triviaPaused := false, inactivityCount := 0,
                 resumingFromInactivity := true },
     [Event.triviaMessage "success" "Trivia resumed!",
      Event.answerReceived qid aidx],
     true)
  else
    match questionAt room with
    | none => (room, [], false)
    | some cq =>
        if qid = cq.id then
          ({ room with questionHasActivity := true, inactivityCount := 0,
                       pendingAnswers := room.pendingAnswers ++
                         [{ userId := sid, answerIndex := aidx,
                            timeRemaining := trem, questionId := qid }] },
           [Event.answerReceived qid aidx], false)
        else (room, [], false)

/-- `endTriviaSession` (server.js:2035–2074): clear the break and phase
intervals (the returned list holds the cleared handles), reset the pause
state, and — when any participant exists — broadcast the session summary
(winner = highest score, ties by insertion order; the payload is
projected to a bare `sessionEnded` event since no claim inspects it). -/
def endTriviaSession (room : Room) : Room × List Nat × List Event :=
  let cleared := room.breakTimerInterval.toList ++ room.timerInterval.toList
  let r := { room with breakTimerInterval := none, timerInterval := none,
                       triviaPaused := false, inactivityCount := 0 }
  (r, cleared, if r.participants.isEmpty then [] else [Event.sessionEnded])

/-- The shared tail of `nextTriviaQuestion`'s two session-ending paths
(server.js:1668–1689 and 1717–1734): end the trivia session, flip back to
study mode, reset the phase timer and broadcast the transition.  The
break-deadline path additionally leads with an informational message
(`withMsg`). -/
def endBreakToStudy (withMsg : Bool) (room : Room) : Room × List Nat × List Event :=
  let msg := if withMsg then
      [Event.triviaMessage "info" "Break time is over, returning to study mode"]
    else []
  let (r1, cleared, ev1) := endTriviaSession room
  let r2 := { r1 with currentMode := Mode.study,
                      timerValue := (r1.settings.studyTime : Int) }
  (r2, cleared,
   msg ++ ev1 ++ [Event.modeChanged Mode.study,
                  Event.timerUpdate r2.timerValue false])

/-- `room.nextBatchQuestions && room.nextBatchQuestions.length > 0`
(server.js:1705). -/
def hasNextBatch (room : Room) : Bool :=
  match room.nextBatchQuestions with
  | none => false
  | some nb => decide (0 < nb.length)

/-- The index-adjustment block of `nextTriviaQuestion`
(server.js:1700–1745).  `Sum.inl` is the early return that ends the
session when the batch is exhausted, no next batch is ready, and fewer
than 20 seconds of break remain; `Sum.inr` carries the updated room into
the rest of the function. -/
def adjustIndex (now : Int) (room : Room) : (Room × List Nat × List Event) ⊕ Room :=
  if (room.triviaQuestions.length : Int) - 1 ≤ room.currentQuestionIndex then
    if hasNextBatch room then
      Sum.inr { room with triviaQuestions := room.nextBatchQuestions.getD [],
                          nextBatchQuestions := none,
                          currentQuestionIndex := 0 }
    else if timeLeftSec now room < 20 then
      Sum.inl (endBreakToStudy false room)
    else
      Sum.inr { room with currentQuestionIndex := 0 }
  else
    Sum.inr { room with currentQuestionIndex := room.currentQuestionIndex + 1 }

/-- `currentQuestion.timeLimit || room.triviaTimeLimit` (server.js:1826). -/
def effectiveTimeLimit (room : Room) (q : Question) : Nat :=
  if q.timeLimit = 0 then room.triviaTimeLimit else q.timeLimit

/-- The second half of `nextTriviaQuestion` after the inactivity gate
(server.js:1773–1908): the second unconditional index increment with its
wrap-around, the empty-batch fallback re-seed, the question emission and
the start of the per-question countdown (handle `fresh`).  `pre` carries
the events emitted earlier in the call. -/
def emitQuestion (fresh : Nat) (r2 : Room) (pre : List Event) :
    Room × List Event × List Nat × Option Nat :=
  let r3 := { r2 with currentQuestionIndex := r2.currentQuestionIndex + 1 }
  let r4 := if (r3.triviaQuestions.length : Int) ≤ r3.currentQuestionIndex
            then { r3 with currentQuestionIndex := 0 } else r3
  let seeded := r4.triviaQuestions.isEmpty
  let r5 := if seeded then
      { r4 with triviaQuestions := fallbackQuestions, currentQuestionIndex := 0 }
    else r4
  let errEv := if seeded then
      [Event.triviaMessage "error"
        "Error: No trivia questions available. Please try a different category."]
    else []
  match questionAt r5 with
  | none => (r5, pre ++ errEv, [], none)
  | some q =>
      ({ r5 with questionHasActivity := false, pendingAnswers := [] },
       pre ++ errEv ++ [Event.newQuestion q.id (effectiveTimeLimit r5 q)],
       [], some fresh)

/-- The inactivity gate of `nextTriviaQuestion` (server.js:1747–1771):
two unanswered questions pause the session unless this call is the
one-shot resume; an already-paused session emits nothing; otherwise the
resume flag is consumed and the question is emitted. -/
def gateAndEmit (fresh : Nat) (r1 : Room) (pre : List Event) :
    Room × List Event × List Nat × Option Nat :=
  if 2 ≤ r1.inactivityCount ∧ ¬ r1.resumingFromInactivity then
    ({ r1 with triviaPaused := true },
     pre ++
       [Event.triviaMessage "warning"
         "Trivia paused due to inactivity. Click any answer to resume trivia."],
     [], none)
  else if r1.triviaPaused ∧ ¬ r1.resumingFromInactivity then
    (r1, pre, [], none)
  else
    emitQuestion fresh { r1 with resumingFromInactivity := false } pre

/-- `nextTriviaQuestion` (server.js:1651–1909), the `AdvanceQuestion`
sequencing core, for a room present in the registry.  `now` is
`Date.now()`; `fresh` is the handle the per-question `setInterval` would
receive.  Returns the updated room, the events in emission order, the
handles cleared by any `endTriviaSession` call, and the registered
question-interval handle (`some fresh` exactly when a question was
emitted and its countdown started). -/
def nextTriviaQuestion (now : Int) (fresh : Nat) (room : Room) :
    Room × List Event × List Nat × Option Nat :=
  if room.currentMode ≠ Mode.trivia then (room, [], [], none)
  else if breakOver now room then
    let (r, cleared, ev) := endBreakToStudy true room
    (r, ev, cleared, none)
  else
    let prefetchEv :=
      if room.currentQuestionIndex = (room.triviaQuestions.length : Int) - 2
      then [Event.startPrefetch] else []
    match adjustIndex now room with
    | Sum.inl (r, cleared, ev) => (r, prefetchEv ++ ev, cleared, none)
    | Sum.inr r1 => gateAndEmit fresh r1 prefetchEv

/-- The body of the resume `setTimeout` scheduled by `submit-answer`
while `triviaPaused` (server.js:1376–1436, non-throwing path): seed the
fallback pool if no questions remain, reset `currentQuestionIndex` to
`-1`, and force `nextTriviaQuestion`. -/
def resumeAfterPause (now : Int) (fresh : Nat) (room : Room) :
    Room × List Event × List Nat × Option Nat :=
  let r1 := if room.triviaQuestions.isEmpty
            then { room with triviaQuestions := fallbackQuestions } else room
  nextTriviaQuestion now fresh { r1 with currentQuestionIndex := -1 }

/-- `join-room` (server.js:1007–1032) on an existing room: append a
non-host participant with score 0 and broadcast the snapshot. -/
def joinRoom (uid : Nat) (uname : String) (room : Room) : Room × List Event :=
  ({ room with participants := room.participants ++
      [{ id := uid, username := uname, isHost := false, score := 0 }] },
   [Event.roomUpdated])

/-- `create-room` (server.js:950–1004): the relevant initial state — the
creator is the sole participant and host. -/
def createRoom (uid : Nat) (uname : String) (settings : Settings)
    (triviaTimeLimit : Nat) : Room :=
  { host := uid
    participants := [{ id := uid, username := uname, isHost := true, score := 0 }]
    settings := settings
    currentMode := Mode.study
    timerValue := (settings.studyTime : Int)
    timerRunning := false
    timerInterval := none
    breakTimerInterval := none
    breakEndTime := none
    triviaQuestions := []
    nextBatchQuestions := none
    currentQuestionIndex := -1
    pendingAnswers := []
    inactivityCount := 0
    triviaPaused := false
    resumingFromInactivity := false
    questionHasActivity := false
    isRegeneratingQuestions := false
    triviaTimeLimit := triviaTimeLimit }

/-- `leave-room` (server.js:1041–1067) on an existing room.  Returns the
surviving room (`none` = deleted from `activeRooms`), the interval
handles passed to `clearInterval` during teardown, and the events.  Note
the teardown clears only the two handles stored on the room record; the
per-question interval of `nextTriviaQuestion` is a local variable there
and is never stored on the room. -/
def leaveRoom (sid : Nat) (room : Room) : Option Room × List Nat × List Event :=
  let remaining := room.participants.filter fun p => p.id ≠ sid
  if sid = room.host then
    match remaining with
    | [] => (none, room.timerInterval.toList ++ room.breakTimerInterval.toList, [])
    | newHost :: rest =>
        (some { room with participants := { newHost with isHost := true } :: rest,
                          host := newHost.id },
         [], [Event.roomUpdated])
  else
    (some { room with participants := remaining }, [], [Event.roomUpdated])

/-- The per-room body of the `disconnect` handler (server.js:1483–1528):
if the socket is a participant, remove its first occurrence
(`findIndex` + `splice(i,1)`, i.e. `eraseP`), then reassign the host or
tear the room down exactly as `leave-room` does. -/
def handleDisconnectRoom (sid : Nat) (room : Room) :
    Option Room × List Nat × List Event :=
  if room.participants.any (fun p => p.id = sid) then
    let wasHost := sid = room.host
    let remaining := room.participants.eraseP fun p => p.id = sid
    if wasHost then
      match remaining with
      | [] => (none, room.timerInterval.toList ++ room.breakTimerInterval.toList, [])
      | newHost :: rest =>
          (some { room with participants := { newHost with isHost := true } :: rest,
                            host := newHost.id },
           [], [Event.roomUpdated])
    else
      (some { room with participants := remaining }, [], [Event.roomUpdated])
  else (some room, [], [])

/-- `start-timer` (server.js:1070–1156) over the registry lookup: `none`
models an unknown room id.  A request from a non-host returns before any
mutation or emission. -/
def startTimer (sid : Nat) (nowMs : Int) (fresh : Nat) (reg : Option Room) :
    Option Room × List Event :=
  match reg with
  | none => (none, [])
  | some room =>
      if sid ≠ room.host then (some room, [])
      else
        let r1 := if room.timerValue ≤ 0 then
            { room with timerValue :=
                if room.currentMode = Mode.study
                then (room.settings.studyTime : Int)
                else (room.settings.breakTime : Int) }
          else room
        let r2 := { r1 with timerInterval := none, breakTimerInterval := none,
                            timerRunning := true }
        let r3 := if r2.currentMode = Mode.study
          then { r2 with timerInterval := some fresh }
          else { r2 with breakEndTime := some (nowMs + r2.timerValue * 1000),
                         breakTimerInterval := some fresh }
        (some r3, [Event.timerUpdate r3.timerValue r3.timerRunning])

/-- `pause-timer` (server.js:1158–1202): host-only; in trivia mode the
remaining break time is snapshotted from the wall-clock deadline. -/
def pauseTimer (sid : Nat) (nowMs : Int) (reg : Option Room) :
    Option Room × List Event :=
  match reg with
  | none => (none, [])
  | some room =>
      if sid ≠ room.host then (some room, [])
      else
        let r1 := if room.currentMode = Mode.study
          then { room with timerInterval := none }
          else if room.breakTimerInterval.isSome then
            { room with breakTimerInterval := none,
                        timerValue := max 0 ((room.breakEndTime.getD 0 - nowMs) / 1000) }
          else room
        let r2 := { r1 with timerRunning := false }
        (some r2, [Event.timerUpdate r2.timerValue false])

/-- `skip-timer` (server.js:1204–1257): host-only; forces the mode flip.
Entering trivia hands off to `startTriviaSession` (kept as the
`startSession` action event since it is asynchronous); leaving trivia
runs `endTriviaSession` synchronously before the mode broadcast. -/
def skipTimer (sid : Nat) (reg : Option Room) : Option Room × List Event :=
  match reg with
  | none => (none, [])
  | some room =>
      if sid ≠ room.host then (some room, [])
      else
        let r1 := { room with timerInterval := none, breakTimerInterval := none,
                              timerRunning := false }
        if r1.currentMode = Mode.study then
          let r2 := { r1 with currentMode := Mode.trivia,
                              timerValue := (r1.settings.breakTime : Int) }
          (some r2, [Event.modeChanged Mode.trivia,
                     Event.timerUpdate r2.timerValue false, Event.startSession])
        else
          let r2 := { r1 with currentMode := Mode.study,
                              timerValue := (r1.settings.studyTime : Int) }
          let (r3, _, ev3) := endTriviaSession r2
          (some r3, ev3 ++ [Event.modeChanged Mode.study,
                            Event.timerUpdate r2.timerValue false])

/-- There is exactly one participant flagged `isHost`, and it is the one
`room.host` names — vacuous for an empty (about-to-be-deleted) room. -/
def hostInv (room : Room) : Prop :=
  room.participants ≠ [] →
    (room.participants.filter fun p => p.isHost).map (fun p => p.id) = [room.host]

/-- `true` exactly on `new-question` broadcasts; used to count emitted
questions. -/
def isNewQuestionEv : Event → Bool
  | Event.newQuestion _ _ => true
  | _ => false

/-! ### Concrete fixtures used by witnesses and counterexamples -/

/-- A batch of five questions with ids 1–5 (all with answer index 0 and a
10-second limit). -/
def exBatchA : List Question :=
  (List.range 5).map fun i =>
    { id := i + 1, text := "q", options := [], correctIndex := 0, timeLimit := 10 }

/-- A prefetched batch of five questions with ids 11–15. -/
def exBatchB : List Question :=
  (List.range 5).map fun i =>
    { id := i + 11, text := "q", options := [], correctIndex := 0, timeLimit := 10 }

/-- A live trivia room: one host (id 1), batch `exBatchA` at question
index 0, break deadline far away, break ticker handle 5. -/
def exRoom : Room :=
  { host := 1
    participants := [{ id := 1, username := "a", isHost := true, score := 0 }]
    settings := { studyTime := 1500, breakTime := 300 }
    currentMode := Mode.trivia
    timerValue := 300
    timerRunning := true
    timerInterval := none
    breakTimerInterval := some 5
    breakEndTime := some 1000000
    triviaQuestions := exBatchA
    nextBatchQuestions := none
    currentQuestionIndex := 0
    pendingAnswers := []
    inactivityCount := 0
    triviaPaused := false
    resumingFromInactivity := false
    questionHasActivity := false
    isRegeneratingQuestions := false
    triviaTimeLimit := 10 }

/-- `exRoom` with a second participant, matching scores, and two buffered
answers for question 1 (id 1, correct index 0): participant 1 answered
correctly with 7 seconds left, participant 2 answered incorrectly. -/
def exScoreRoom : Room :=
  { exRoom with
    participants := [{ id := 1, username := "a", isHost := true, score := 5 },
                     { id := 2, username := "b", isHost := false, score := 3 }],
    pendingAnswers :=
      [{ userId := 1, answerIndex := 0, timeRemaining := 7, questionId := 1 },
       { userId := 2, answerIndex := 1, timeRemaining := 9, questionId := 1 }] }

/-- `exRoom` after two consecutive unanswered questions. -/
def exInactiveRoom : Room := { exRoom with inactivityCount := 2 }

/-- `exRoom` paused by the inactivity gate. -/
def exPausedRoom : Room := { exRoom with triviaPaused := true }

/-- `exRoom` with the current batch exhausted and a prefetched batch
ready. -/
def exSwapRoom : Room :=
  { exRoom with currentQuestionIndex := 4, nextBatchQuestions := some exBatchB }

/-- `exRoom` with a second, non-host participant. -/
def exTwoRoom : Room :=
  { exRoom with
    participants := [{ id := 1, username := "a", isHost := true, score := 0 },
                     { id := 2, username := "b", isHost := false, score := 0 }] }

/-! ### Helper lemmas about scoring -/

theorem scoreOf_addScore (ps : List Participant) (uid pts u : Nat) :
    scoreOf (addScore ps uid pts) u =
      if u = uid then (scoreOf ps u).map (· + pts) else scoreOf ps u := by
  induction ps with
  | nil => simp [addScore, scoreOf]
  | cons p ps ih =>
      by_cases hp : p.id = uid
      · by_cases hu : u = uid
        · simp [addScore, hp, scoreOf, List.find?_cons, hu, hu ▸ hp]
        · have hpu : ¬ (p.id = u) := fun h => hu (h ▸ hp.symm ▸ rfl)
          have hu2 : ¬ (uid = u) := fun h => hu h.symm
          simp [addScore, hp, scoreOf, List.find?_cons, hu, hpu, hu2]
      · by_cases hpu : p.id = u
        · have hu : ¬ (u = uid) := fun h => hp (hpu.trans h)
          simp [addScore, hp, scoreOf, List.find?_cons, hpu, hu]
        · simpa [addScore, hp, scoreOf, List.find?_cons, hpu] using ih

theorem scoreOf_foldl_addScore (L : Nat) (l : List PendingAnswer)
    (ps : List Participant) (u s0 : Nat)
    (hs : scoreOf ps u = some s0) :
    scoreOf (l.foldl (fun ps a => addScore ps a.userId (pointsEarned a.timeRemaining L)) ps) u
      = some (s0 + ((l.filter fun a => a.userId = u).map
          (fun a => pointsEarned a.timeRemaining L)).sum) := by
  induction l generalizing ps s0 with
  | nil => simpa using hs
  | cons a l ih =>
      simp only [List.foldl_cons]
      by_cases ha : a.userId = u
      · have h2 : scoreOf (addScore ps a.userId (pointsEarned a.timeRemaining L)) u
            = some (s0 + pointsEarned a.timeRemaining L) := by
          rw [scoreOf_addScore, if_pos ha.symm, hs]; rfl
        rw [ih _ _ h2, List.filter_cons_of_pos (by simpa using ha)]
        simp [Nat.add_assoc]
      · have h2 : scoreOf (addScore ps a.userId (pointsEarned a.timeRemaining L)) u
            = some s0 := by
          rw [scoreOf_addScore, if_neg (fun h => ha h.symm)]; exact hs
        rw [ih _ _ h2, List.filter_cons_of_neg (by simpa using ha)]

theorem pointsEarned_eq_ceil (t L : Nat) (hL : 0 < L) :
    (pointsEarned t L : ℤ) = ⌈(t * 20 : ℚ) / (L : ℚ)⌉ := by
  have hL' : (0 : ℚ) < (L : ℚ) := by exact_mod_cast hL
  have hdef : pointsEarned t L = (t * 20) ⌈/⌉ L := (Nat.ceilDiv_eq_add_pred_div _ _).symm
  have hub : (t * 20 : ℕ) ≤ L * pointsEarned t L := by
    have := le_smul_ceilDiv (β := ℕ) hL (b := t * 20)
    rwa [smul_eq_mul, ← hdef] at this
  symm
  rw [Int.ceil_eq_iff]
  push_cast
  refine ⟨?_, ?_⟩
  · refine (lt_div_iff hL').mpr ?_
    rcases Nat.eq_zero_or_pos (pointsEarned t L) with h0 | h1
    · rw [h0]
      have ht : (0 : ℚ) ≤ (t : ℚ) * 20 := by positivity
      push_cast
      nlinarith
    · have hlb : L * (pointsEarned t L - 1) < t * 20 := by
        by_contra hc
        push_neg at hc
        have := (ceilDiv_le_iff_le_mul hL).2 hc
        rw [← hdef] at this
        omega
      have hcast : ((L * (pointsEarned t L - 1) : ℕ) : ℚ) < ((t * 20 : ℕ) : ℚ) := by
        exact_mod_cast hlb
      rw [Nat.cast_mul, Nat.cast_sub h1] at hcast
      push_cast at hcast
      nlinarith
  · refine (div_le_iff hL').mpr ?_
    have hcast : ((t * 20 : ℕ) : ℚ) ≤ ((L * pointsEarned t L : ℕ) : ℚ) := by
      exact_mod_cast hub
    push_cast at hcast
    nlinarith

theorem filter_correct_filter_user (l : List PendingAnswer) (u ci : Nat) :
    (l.filter fun a => a.answerIndex = ci).filter (fun a => a.userId = u)
      = l.filter fun a => a.userId = u ∧ a.answerIndex = ci := by
  induction l with
  | nil => rfl
  | cons a l ih =>
      by_cases h1 : a.answerIndex = ci <;> by_cases h2 : a.userId = u <;>
        simp [List.filter_cons, h1, h2, ih]

/-! ### Helper lemmas about question sequencing -/

theorem adjustIndex_inl_iff (now : Int) (room : Room) (x) :
    adjustIndex now room = Sum.inl x →
      ((room.triviaQuestions.length : Int) - 1 ≤ room.currentQuestionIndex
        ∧ hasNextBatch room = false ∧ timeLeftSec now room < 20) := by
  unfold adjustIndex
  split_ifs with h1 h2 h3 <;> intro h <;> simp_all

theorem adjustIndex_inr_fields (now : Int) (room : Room) (r1 : Room) :
    adjustIndex now room = Sum.inr r1 →
      r1.inactivityCount = room.inactivityCount
      ∧ r1.resumingFromInactivity = room.resumingFromInactivity
      ∧ r1.triviaPaused = room.triviaPaused
      ∧ r1.participants = room.participants
      ∧ r1.breakEndTime = room.breakEndTime := by
  unfold adjustIndex
  split_ifs with h1 h2 h3 <;> intro h <;> cases h <;> simp

theorem emitQuestion_emits (fresh : Nat) (r2 : Room) (pre : List Event)
    (hpre : pre.filter isNewQuestionEv = [])
    (hq : r2.triviaQuestions ≠ [])
    (h0 : 0 ≤ r2.currentQuestionIndex) :
    ((emitQuestion fresh r2 pre).2.1.filter isNewQuestionEv).length = 1
    ∧ (emitQuestion fresh r2 pre).1.resumingFromInactivity = r2.resumingFromInactivity
    ∧ (emitQuestion fresh r2 pre).1.participants = r2.participants
    ∧ (emitQuestion fresh r2 pre).1.pendingAnswers = []
    ∧ (emitQuestion fresh r2 pre).2.2.2 = some fresh := by
  have hlen : 0 < r2.triviaQuestions.length := List.length_pos.mpr hq
  simp only [emitQuestion]
  by_cases hw : (r2.triviaQuestions.length : Int) ≤ r2.currentQuestionIndex + 1
  · rw [if_pos hw]
    have hne : r2.triviaQuestions.isEmpty = false := by
      simpa [List.isEmpty_iff] using hq
    simp only [hne, Bool.false_eq_true, if_false]
    have hqa : questionAt { r2 with currentQuestionIndex := 0 } =
        r2.triviaQuestions.get? 0 := by
      simp [questionAt]
    rw [List.get?_eq_get hlen] at hqa
    simp only [hqa]
    simp [hpre, List.filter_append, isNewQuestionEv]
  · rw [if_neg hw]
    have hne : r2.triviaQuestions.isEmpty = false := by
      simpa [List.isEmpty_iff] using hq
    simp only [hne, Bool.false_eq_true, if_false]
    have hlt1 : (r2.currentQuestionIndex + 1).toNat < r2.triviaQuestions.length := by
      omega
    have hqa : questionAt { r2 with currentQuestionIndex := r2.currentQuestionIndex + 1 } =
        r2.triviaQuestions.get? (r2.currentQuestionIndex + 1).toNat := by
      simp only [questionAt]
      rw [if_neg (by omega)]
    rw [List.get?_eq_get hlt1] at hqa
    simp only [hqa]
    simp [hpre, List.filter_append, isNewQuestionEv]

theorem nextTriviaQuestion_resuming (now : Int) (fresh : Nat) (r2 : Room)
    (hmode : r2.currentMode = Mode.trivia)
    (hover : breakOver now r2 = false)
    (hres : r2.resumingFromInactivity = true)
    (hidx : r2.currentQuestionIndex = -1)
    (hq : r2.triviaQuestions ≠ []) :
    ((nextTriviaQuestion now fresh r2).2.1.filter isNewQuestionEv).length = 1
    ∧ (nextTriviaQuestion now fresh r2).1.resumingFromInactivity = false
    ∧ (nextTriviaQuestion now fresh r2).1.participants = r2.participants
    ∧ (nextTriviaQuestion now fresh r2).1.pendingAnswers = []
    ∧ (nextTriviaQuestion now fresh r2).2.2.2 = some fresh := by
  have hlen : 0 < r2.triviaQuestions.length := List.length_pos.mpr hq
  have hadj : adjustIndex now r2
      = Sum.inr { r2 with currentQuestionIndex := r2.currentQuestionIndex + 1 } := by
    unfold adjustIndex
    rw [if_neg (by rw [hidx]; omega)]
  have hpre : ∀ pre : List Event,
      (pre = if r2.currentQuestionIndex = (r2.triviaQuestions.length : Int) - 2
             then [Event.startPrefetch] else []) →
      pre.filter isNewQuestionEv = [] := by
    intro pre hp
    rw [hp]
    split <;> simp [isNewQuestionEv]
  simp only [nextTriviaQuestion, hadj]
  rw [if_neg (by simp [hmode]), if_neg (by simp [hover])]
  simp only [gateAndEmit]
  rw [if_neg (by simp [hres]), if_neg (by simp [hres])]
  have := emitQuestion_emits fresh
    { r2 with currentQuestionIndex := r2.currentQuestionIndex + 1,
              resumingFromInactivity := false }
    (if r2.currentQuestionIndex = (r2.triviaQuestions.length : Int) - 2
     then [Event.startPrefetch] else [])
    (hpre _ rfl) (by simpa using hq) (by simp [hidx])
  exact this

theorem resumeAfterPause_emits (now : Int) (fresh : Nat) (r : Room)
    (hmode : r.currentMode = Mode.trivia)
    (hover : breakOver now r = false)
    (hres : r.resumingFromInactivity = true) :
    ((resumeAfterPause now fresh r).2.1.filter isNewQuestionEv).length = 1
    ∧ (resumeAfterPause now fresh r).1.resumingFromInactivity = false
    ∧ (resumeAfterPause now fresh r).1.participants = r.participants
    ∧ (resumeAfterPause now fresh r).1.pendingAnswers = []
    ∧ (resumeAfterPause now fresh r).2.2.2 = some fresh := by
  unfold resumeAfterPause
  by_cases he : r.triviaQuestions.isEmpty
  · rw [if_pos he]
    have := nextTriviaQuestion_resuming now fresh
      { r with triviaQuestions := fallbackQuestions, currentQuestionIndex := -1 }
      (by simpa) (by simpa [breakOver] using hover) (by simpa) (by simp)
      (by simp [fallbackQuestions])
    simpa using this
  · rw [if_neg he]
    have := nextTriviaQuestion_resuming now fresh
      { r with currentQuestionIndex := -1 }
      (by simpa) (by simpa [breakOver] using hover) (by simpa) (by simp)
      (by simpa [List.isEmpty_iff] using he)
    simpa using this

/-! ### Helper lemmas about participants, hosts and teardown -/

theorem filter_swap (l : List Participant) (f g : Participant → Bool) :
    (l.filter f).filter g = (l.filter g).filter f := by
  simp [List.filter_filter, Bool.and_comm]

theorem hostFilter_singleton {room : Room} (h : hostInv room)
    (hne : room.participants ≠ []) :
    ∃ p, room.participants.filter (fun q => q.isHost) = [p]
      ∧ p.id = room.host ∧ p ∈ room.participants := by
  have hmap := h hne
  cases hf : room.participants.filter (fun q => q.isHost) with
  | nil => rw [hf] at hmap; simp at hmap
  | cons p t =>
      rw [hf] at hmap
      cases t with
      | nil =>
          refine ⟨p, rfl, ?_, ?_⟩
          · simpa using hmap
          · have : p ∈ room.participants.filter (fun q => q.isHost) := by
              rw [hf]; exact List.mem_cons_self _ _
            exact List.mem_of_mem_filter this
      | cons q t' => simp at hmap

theorem mem_eraseP_of_neg {l : List Participant} {p : Participant}
    {f : Participant → Bool} (hp : p ∈ l) (hf : f p = false) :
    p ∈ l.eraseP f := by
  induction l with
  | nil => simp at hp
  | cons b l ih =>
      by_cases hb : f b
      · rw [List.eraseP_cons_of_pos hb]
        rcases List.mem_cons.mp hp with hpb | hpl
        · subst hpb; rw [hb] at hf; cases hf
        · exact hpl
      · rw [List.eraseP_cons_of_neg (by simpa using hb)]
        rcases List.mem_cons.mp hp with hpb | hpl
        · subst hpb; exact List.mem_cons_self _ _
        · exact List.mem_cons_of_mem _ (ih hpl)

theorem not_mem_eraseP_of_nodup {l : List Participant} {sid : Nat} {p : Participant}
    (hnd : (l.map fun q => q.id).Nodup) (hp : p ∈ l) (hid : p.id = sid) :
    p ∉ l.eraseP (fun q => q.id = sid) := by
  induction l with
  | nil => simp at hp
  | cons b l ih =>
      rw [List.map_cons, List.nodup_cons] at hnd
      by_cases hb : b.id = sid
      · rw [List.eraseP_cons_of_pos (by simpa using hb)]
        intro hmem
        exact hnd.1 (by
          have : p.id ∈ l.map fun q => q.id := List.mem_map_of_mem _ hmem
          rwa [hid, ← hb] at this)
      · rw [List.eraseP_cons_of_neg (by simpa using hb)]
        intro hmem
        rcases List.mem_cons.mp hmem with hpb | hpl
        · exact hb (hpb ▸ hid)
        · have hpl' : p ∈ l := (List.eraseP_sublist _).subset hpl
          exact ih hnd.2 hpl' hpl

theorem hostInv_leaveRoom (room : Room) (sid : Nat) (h : hostInv room) :
    ∀ r', (leaveRoom sid room).1 = some r' → hostInv r' := by
  intro r' hr'
  unfold leaveRoom at hr'
  by_cases hhost : sid = room.host
  · rw [if_pos hhost] at hr'
    cases hrem : room.participants.filter (fun p => p.id ≠ sid) with
    | nil => rw [hrem] at hr'; simp at hr'
    | cons newHost rest =>
        rw [hrem] at hr'
        simp only [Option.some.injEq] at hr'
        subst hr'
        intro _
        have hne : room.participants ≠ [] := by
          intro h0; rw [h0] at hrem; simp at hrem
        obtain ⟨p, hpf, hpid, hpmem⟩ := hostFilter_singleton h hne
        have hremf : (room.participants.filter (fun p => p.id ≠ sid)).filter
            (fun q => q.isHost) = [] := by
          rw [filter_swap, hpf]
          simp only [List.filter_cons, List.filter_nil]
          rw [if_neg (by simp [hpid, hhost])]
        rw [hrem] at hremf
        simp only [List.filter_cons] at hremf
        split at hremf
        · cases hremf
        · simpa [List.filter_cons, hremf]
  · rw [if_neg hhost] at hr'
    simp only [Option.some.injEq] at hr'
    subst hr'
    intro hne'
    have hne : room.participants ≠ [] := by
      intro h0
      apply hne'
      simp only [h0]
      rfl
    obtain ⟨p, hpf, hpid, hpmem⟩ := hostFilter_singleton h hne
    show (List.filter _ _).map _ = _
    rw [filter_swap, hpf]
    simp only [List.filter_cons, List.filter_nil]
    rw [if_pos (by simp [hpid]; exact fun hh => hhost hh.symm)]
    simp [hpid]

theorem hostInv_disconnect (room : Room) (sid : Nat)
    (hnd : (room.participants.map fun p => p.id).Nodup) (h : hostInv room) :
    ∀ r', (handleDisconnectRoom sid room).1 = some r' → hostInv r' := by
  intro r' hr'
  unfold handleDisconnectRoom at hr'
  by_cases hany : room.participants.any (fun p => p.id = sid)
  · rw [if_pos hany] at hr'
    have hne : room.participants ≠ [] := by
      intro h0; rw [h0] at hany; simp at hany
    obtain ⟨p, hpf, hpid, hpmem⟩ := hostFilter_singleton h hne
    have hphost : p.isHost = true := by
      have := List.mem_filter.mp (by rw [hpf]; exact List.mem_cons_self _ _ :
        p ∈ room.participants.filter (fun q => q.isHost))
      simpa using this.2
    by_cases hhost : sid = room.host
    · rw [if_pos hhost] at hr'
      cases hrem : room.participants.eraseP (fun q => q.id = sid) with
      | nil => rw [hrem] at hr'; simp at hr'
      | cons newHost rest =>
          rw [hrem] at hr'
          simp only [Option.some.injEq] at hr'
          subst hr'
          intro _
          have hpnot : p ∉ room.participants.eraseP (fun q => q.id = sid) :=
            not_mem_eraseP_of_nodup hnd hpmem (by rw [hpid, hhost])
          have hremf : (room.participants.eraseP (fun q => q.id = sid)).filter
              (fun q => q.isHost) = [] := by
            cases hq : (room.participants.eraseP (fun q => q.id = sid)).filter
                (fun q => q.isHost) with
            | nil => rfl
            | cons q t' =>
                exfalso
                have hqmem : q ∈ (room.participants.eraseP (fun q => q.id = sid)).filter
                    (fun q => q.isHost) := by
                  rw [hq]; exact List.mem_cons_self _ _
                have hqer : q ∈ room.participants.eraseP (fun q => q.id = sid) :=
                  List.mem_of_mem_filter hqmem
                have hqpart : q ∈ room.participants := (List.eraseP_sublist _).subset hqer
                have hqhost : q.isHost := by simpa using (List.mem_filter.mp hqmem).2
                have : q ∈ room.participants.filter (fun q => q.isHost) :=
                  List.mem_filter.mpr ⟨hqpart, by simpa using hqhost⟩
                rw [hpf] at this
                have hqp : q = p := by simpa using this
                exact hpnot (hqp ▸ hqer)
          rw [hrem] at hremf
          simp only [List.filter_cons] at hremf
          split at hremf
          · cases hremf
          · simpa [List.filter_cons, hremf]
    · rw [if_neg hhost] at hr'
      simp only [Option.some.injEq] at hr'
      subst hr'
      intro hne'
      have hpider : p.id ≠ sid := by
        rw [hpid]; exact fun hh => hhost hh.symm
      have hpn : p ∈ room.participants.eraseP (fun q => q.id = sid) :=
        mem_eraseP_of_neg hpmem (by simpa using hpider)
      show (List.filter _ _).map _ = _
      have hsub : List.Sublist ((room.participants.eraseP (fun q => q.id = sid)).filter
          (fun q => q.isHost)) (room.participants.filter (fun q => q.isHost)) :=
        (List.eraseP_sublist _).filter _
      rw [hpf] at hsub
      have hpmemf : p ∈ (room.participants.eraseP (fun q => q.id = sid)).filter
          (fun q => q.isHost) := List.mem_filter.mpr ⟨hpn, by simpa using hphost⟩
      have hlen1 : 0 < ((room.participants.eraseP (fun q => q.id = sid)).filter
          (fun q => q.isHost)).length :=
        List.length_pos.mpr (List.ne_nil_of_mem hpmemf)
      have heq := hsub.eq_of_length_le (by simpa using hlen1)
      rw [heq]
      simp [hpid]
  · rw [if_neg hany] at hr'
    simp only [Option.some.injEq] at hr'
    subst hr'
    exact h

theorem hostInv_createRoom (uid : Nat) (uname : String) (st : Settings) (tl : Nat) :
    hostInv (createRoom uid uname st tl) := by
  intro _
  simp [createRoom, List.filter_cons]

theorem hostInv_joinRoom (room : Room) (uid : Nat) (uname : String)
    (hne : room.participants ≠ []) (h : hostInv room) :
    hostInv (joinRoom uid uname room).1 := by
  intro _
  simp only [joinRoom]
  rw [List.filter_append]
  simpa using h hne

theorem addScore_hostFilter (ps : List Participant) (uid pts : Nat) :
    ((addScore ps uid pts).filter (fun p => p.isHost)).map (fun p => p.id)
      = (ps.filter (fun p => p.isHost)).map (fun p => p.id)
    ∧ (addScore ps uid pts).length = ps.length := by
  induction ps with
  | nil => simp [addScore]
  | cons p ps ih =>
      by_cases hp : p.id = uid
      · simp [addScore, hp, List.filter_cons]
        split <;> simp [hp]
      · simp only [addScore, if_neg hp, List.filter_cons, List.length_cons, ih.2]
        refine ⟨?_, trivial⟩
        split <;> simp [ih.1]

theorem foldl_addScore_hostFilter (l : List PendingAnswer) (L : Nat)
    (ps : List Participant) :
    ((l.foldl (fun ps a => addScore ps a.userId (pointsEarned a.timeRemaining L)) ps).filter
        (fun p => p.isHost)).map (fun p => p.id)
      = (ps.filter (fun p => p.isHost)).map (fun p => p.id)
    ∧ (l.foldl (fun ps a => addScore ps a.userId (pointsEarned a.timeRemaining L)) ps).length
      = ps.length := by
  induction l generalizing ps with
  | nil => simp
  | cons a l ih =>
      simp only [List.foldl_cons]
      refine ⟨?_, ?_⟩
      · rw [(ih _).1, (addScore_hostFilter _ _ _).1]
      · rw [(ih _).2, (addScore_hostFilter _ _ _).2]

theorem hostInv_resolveQuestion (room : Room) (cq : Question) (h : hostInv room) :
    hostInv (resolveQuestion room cq).1 := by
  intro hne'
  simp only [resolveQuestion] at hne' ⊢
  have hne : room.participants ≠ [] := by
    intro h0
    apply hne'
    have := (foldl_addScore_hostFilter
      (room.pendingAnswers.filter fun a => a.answerIndex = cq.correctIndex)
      cq.timeLimit room.participants).2
    apply List.length_eq_zero.mp
    rw [this, h0]
    rfl
  have := (foldl_addScore_hostFilter
    (room.pendingAnswers.filter fun a => a.answerIndex = cq.correctIndex)
    cq.timeLimit room.participants).1
  rw [this]
  exact h hne

theorem leaveRoom_host_determinism (room : Room) (sid : Nat)
    (hhost : sid = room.host) (p0 t0 : _)
    (hrem : room.participants.filter (fun p => p.id ≠ sid) = p0 :: t0) :
    (leaveRoom sid room).1 =
      some { room with participants := { p0 with isHost := true } :: t0,
                       host := p0.id } := by
  unfold leaveRoom
  rw [if_pos hhost, hrem]

theorem leaveRoom_teardown (room : Room) (sid : Nat) :
    (sid = room.host → room.participants.filter (fun p => p.id ≠ sid) = [] →
      leaveRoom sid room =
        (none, room.timerInterval.toList ++ room.breakTimerInterval.toList, []))
    ∧ ((leaveRoom sid room).1 = none →
        room.participants.filter (fun p => p.id ≠ sid) = [])
    ∧ (hostInv room → room.participants ≠ [] →
        room.participants.filter (fun p => p.id ≠ sid) = [] →
        (leaveRoom sid room).1 = none) := by
  refine ⟨?_, ?_, ?_⟩
  · intro hhost hrem
    unfold leaveRoom
    rw [if_pos hhost, hrem]
  · intro hnone
    unfold leaveRoom at hnone
    by_cases hhost : sid = room.host
    · rw [if_pos hhost] at hnone
      cases hrem : room.participants.filter (fun p => p.id ≠ sid) with
      | nil => rfl
      | cons a t => rw [hrem] at hnone; simp at hnone
    · rw [if_neg hhost] at hnone
      simp at hnone
  · intro h hne hrem
    obtain ⟨p, hpf, hpid, hpmem⟩ := hostFilter_singleton h hne
    have hpsid : p.id = sid := by
      by_contra hc
      have : p ∈ room.participants.filter (fun q => q.id ≠ sid) :=
        List.mem_filter.mpr ⟨hpmem, by simpa using hc⟩
      rw [hrem] at this
      simp at this
    have hhost : sid = room.host := by rw [← hpid, hpsid]
    unfold leaveRoom
    rw [if_pos hhost, hrem]

theorem disconnect_teardown (room : Room) (sid : Nat) :
    (sid = room.host → room.participants.any (fun p => p.id = sid) →
      room.participants.eraseP (fun p => p.id = sid) = [] →
      handleDisconnectRoom sid room =
        (none, room.timerInterval.toList ++ room.breakTimerInterval.toList, []))
    ∧ ((handleDisconnectRoom sid room).1 = none →
        room.participants.eraseP (fun p => p.id = sid) = []) := by
  constructor
  · intro hhost hany hrem
    unfold handleDisconnectRoom
    rw [if_pos hany]
    simp only [if_pos hhost, hrem]
  · intro hnone
    unfold handleDisconnectRoom at hnone
    by_cases hany : room.participants.any (fun p => p.id = sid)
    · rw [if_pos hany] at hnone
      by_cases hhost : sid = room.host
      · simp only [if_pos hhost] at hnone
        cases hrem : room.participants.eraseP (fun p => p.id = sid) with
        | nil => rfl
        | cons a t => rw [hrem] at hnone; simp at hnone
      · simp only [if_neg hhost] at hnone
        simp at hnone
    · rw [if_neg hany] at hnone
      simp at hnone

/-! ### Claim theorems -/

/-- **C1** (confirmed).  When a question's timer expires, each buffered
answer whose `answerIndex` equals the question's `correctIndex` awards
its participant exactly `ceil(timeRemaining × 20 / timeLimit)` points,
added to that participant's score; incorrect or missing answers award
nothing: every participant's new score is their old score plus the sum of
`pointsEarned` over exactly their own correct buffered answers, and
`pointsEarned` is that ceiling (evaluated in exact arithmetic). -/
theorem questionExpiry_awards_ceil (room : Room) (cq : Question) (u s0 : Nat)
    (hq : questionAt room = some cq)
    (hs : scoreOf room.participants u = some s0)
    (hL : 0 < cq.timeLimit) :
    (∃ r', (questionTimerExpiry (some room)).1 = some r' ∧
      scoreOf r'.participants u = some (s0 +
        ((room.pendingAnswers.filter fun a =>
            a.userId = u ∧ a.answerIndex = cq.correctIndex).map
          (fun a => pointsEarned a.timeRemaining cq.timeLimit)).sum))
    ∧ ∀ t : Nat, (pointsEarned t cq.timeLimit : ℤ)
        = ⌈(t * 20 : ℚ) / (cq.timeLimit : ℚ)⌉ := by
  constructor
  · simp only [questionTimerExpiry, hq, resolveQuestion]
    refine ⟨_, rfl, ?_⟩
    rw [scoreOf_foldl_addScore _ _ _ _ _ hs, filter_correct_filter_user]
  · intro t
    exact pointsEarned_eq_ceil t cq.timeLimit hL

/-- The first question of `exBatchA` (the one live in `exScoreRoom`). -/
def exQ0 : Question :=
  { id := 1, text := "q", options := [], correctIndex := 0, timeLimit := 10 }

/-- Witness for **C1**: in `exScoreRoom`, participant 1 (score 5, correct
answer with 7 of 10 seconds left) ends at `5 + ⌈7·20/10⌉ = 19`. -/
theorem questionExpiry_awards_ceil_witness :
    (∃ r', (questionTimerExpiry (some exScoreRoom)).1 = some r' ∧
      scoreOf r'.participants 1 = some (5 +
        ((exScoreRoom.pendingAnswers.filter fun a =>
            a.userId = 1 ∧ a.answerIndex = exQ0.correctIndex).map
          (fun a => pointsEarned a.timeRemaining exQ0.timeLimit)).sum))
    ∧ ∀ t : Nat, (pointsEarned t exQ0.timeLimit : ℤ)
        = ⌈(t * 20 : ℚ) / (exQ0.timeLimit : ℚ)⌉ :=
  questionExpiry_awards_ceil exScoreRoom exQ0 1 5 rfl rfl (by decide)

/-- **C2** (confirmed).  If both of the two most recently resolved
questions got zero answers (`inactivityCount ≥ 2`), the session is not
resuming from a pause, the break deadline has not passed, and the call
does not hit the exhausted-batch early session end, then
`AdvanceQuestion` sets `triviaPaused`, broadcasts the pause notice,
emits no new question and starts no question timer. -/
theorem advance_pauses_after_two_inactive (now : Int) (fresh : Nat) (room : Room)
    (hmode : room.currentMode = Mode.trivia)
    (hover : breakOver now room = false)
    (hin : 2 ≤ room.inactivityCount)
    (hres : room.resumingFromInactivity = false)
    (hend : ¬((room.triviaQuestions.length : Int) - 1 ≤ room.currentQuestionIndex
              ∧ hasNextBatch room = false ∧ timeLeftSec now room < 20)) :
    (nextTriviaQuestion now fresh room).1.triviaPaused = true
    ∧ Event.triviaMessage "warning"
        "Trivia paused due to inactivity. Click any answer to resume trivia."
        ∈ (nextTriviaQuestion now fresh room).2.1
    ∧ ((nextTriviaQuestion now fresh room).2.1.filter isNewQuestionEv) = []
    ∧ (nextTriviaQuestion now fresh room).2.2.2 = none := by
  rcases h : adjustIndex now room with x | r1
  · exact absurd (adjustIndex_inl_iff now room x h) hend
  · obtain ⟨hic, hrf, _, _, _⟩ := adjustIndex_inr_fields now room r1 h
    have hgate : (2 ≤ r1.inactivityCount ∧ ¬ r1.resumingFromInactivity) := by
      rw [hic, hrf, hres]; exact ⟨hin, by simp⟩
    simp only [nextTriviaQuestion, h]
    rw [if_neg (by simp [hmode]), if_neg (by simp [hover])]
    simp only [gateAndEmit]
    rw [if_pos hgate]
    refine ⟨rfl, ?_, ?_, rfl⟩
    · simp
    · split <;> simp [isNewQuestionEv]

/-- Witness for **C2** on `exInactiveRoom`. -/
theorem advance_pauses_after_two_inactive_witness :
    (nextTriviaQuestion 0 77 exInactiveRoom).1.triviaPaused = true
    ∧ Event.triviaMessage "warning"
        "Trivia paused due to inactivity. Click any answer to resume trivia."
        ∈ (nextTriviaQuestion 0 77 exInactiveRoom).2.1
    ∧ ((nextTriviaQuestion 0 77 exInactiveRoom).2.1.filter isNewQuestionEv) = []
    ∧ (nextTriviaQuestion 0 77 exInactiveRoom).2.2.2 = none :=
  advance_pauses_after_two_inactive 0 77 exInactiveRoom rfl (by decide)
    (by decide) rfl (by decide)

/-- **C3** (confirmed).  A `SubmitAnswer` while the session is paused
never buffers or scores the submitted answer (`pendingAnswers` and all
scores are unchanged, and the resume's question emission clears
`pendingAnswers`); it clears `paused`, resets the inactivity counter,
schedules the resume, and the scheduled `AdvanceQuestion` emits exactly
one new question, with the gate-bypass flag consumed (set back to
`false`) after that single call. -/
theorem submitAnswer_paused_resumes (now : Int) (fresh : Nat) (room : Room)
    (sid qid aidx trem : Nat)
    (hmode : room.currentMode = Mode.trivia)
    (hp : room.triviaPaused = true)
    (hover : breakOver now room = false) :
    (submitAnswer sid qid aidx trem room).2.2 = true
    ∧ (submitAnswer sid qid aidx trem room).1.pendingAnswers = room.pendingAnswers
    ∧ (submitAnswer sid qid aidx trem room).1.participants = room.participants
    ∧ (submitAnswer sid qid aidx trem room).1.triviaPaused = false
    ∧ (submitAnswer sid qid aidx trem room).1.inactivityCount = 0
    ∧ ((submitAnswer sid qid aidx trem room).2.1.filter isNewQuestionEv) = []
    ∧ ((resumeAfterPause now fresh (submitAnswer sid qid aidx trem room).1).2.1.filter
        isNewQuestionEv).length = 1
    ∧ (resumeAfterPause now fresh
        (submitAnswer sid qid aidx trem room).1).1.resumingFromInactivity = false
    ∧ (resumeAfterPause now fresh
        (submitAnswer sid qid aidx trem room).1).1.participants = room.participants
    ∧ (resumeAfterPause now fresh
        (submitAnswer sid qid aidx trem room).1).1.pendingAnswers = [] := by
  have hsub : submitAnswer sid qid aidx trem room =
      ({ room with triviaPaused := false, inactivityCount := 0,
                   resumingFromInactivity := true },
       [Event.triviaMessage "success" "Trivia resumed!",
        Event.answerReceived qid aidx], true) := by
    simp [submitAnswer, hmode, hp]
  rw [hsub]
  have hres := resumeAfterPause_emits now fresh
    { room with triviaPaused := false, inactivityCount := 0,
                resumingFromInactivity := true }
    (by simpa) (by simpa [breakOver] using hover) (by simp)
  exact ⟨rfl, rfl, rfl, rfl, rfl, by simp [isNewQuestionEv],
    hres.1, hres.2.1, by simpa using hres.2.2.1, hres.2.2.2.1⟩

/-- Witness for **C3** on `exPausedRoom`. -/
theorem submitAnswer_paused_resumes_witness :
    (submitAnswer 1 99 0 7 exPausedRoom).2.2 = true
    ∧ (submitAnswer 1 99 0 7 exPausedRoom).1.pendingAnswers = exPausedRoom.pendingAnswers
    ∧ (submitAnswer 1 99 0 7 exPausedRoom).1.participants = exPausedRoom.participants
    ∧ (submitAnswer 1 99 0 7 exPausedRoom).1.triviaPaused = false
    ∧ (submitAnswer 1 99 0 7 exPausedRoom).1.inactivityCount = 0
    ∧ ((submitAnswer 1 99 0 7 exPausedRoom).2.1.filter isNewQuestionEv) = []
    ∧ ((resumeAfterPause 0 77 (submitAnswer 1 99 0 7 exPausedRoom).1).2.1.filter
        isNewQuestionEv).length = 1
    ∧ (resumeAfterPause 0 77
        (submitAnswer 1 99 0 7 exPausedRoom).1).1.resumingFromInactivity = false
    ∧ (resumeAfterPause 0 77
        (submitAnswer 1 99 0 7 exPausedRoom).1).1.participants = exPausedRoom.participants
    ∧ (resumeAfterPause 0 77
        (submitAnswer 1 99 0 7 exPausedRoom).1).1.pendingAnswers = [] :=
  submitAnswer_paused_resumes 0 77 exPausedRoom 1 99 0 7 rfl rfl (by decide)

/-- **C4** (code bug).  On the normal path `nextTriviaQuestion` advances
`currentQuestionIndex` by *two*, not one: the else-branch of the
index-adjustment block increments it (server.js:1744) and a second
unconditional increment follows after the inactivity gate
(server.js:1774).  In `exRoom` (index 0, fresh five-question batch, far
deadline, no inactivity) the call lands on index 2 and broadcasts
question id 3, skipping question id 2 — the question a single increment
would have shown. -/
theorem advance_double_increment_bug :
    (nextTriviaQuestion 0 77 exRoom).1.currentQuestionIndex = 2
    ∧ Event.newQuestion 3 10 ∈ (nextTriviaQuestion 0 77 exRoom).2.1
    ∧ Event.newQuestion 2 10 ∉ (nextTriviaQuestion 0 77 exRoom).2.1 := by
  decide

/-- **C5** (code bug).  When the batch is exhausted and a prefetched
`nextBatch` is ready, the swap happens and `nextBatchQuestions` is
cleared as specified, and `currentQuestionIndex` is reset to 0
(server.js:1711) — but the second increment (server.js:1774) then moves
it to 1, so the question broadcast is the *second* question of the new
batch (id 12), not the one at index 0 (id 11). -/
theorem batch_swap_skips_first_question_bug :
    (nextTriviaQuestion 0 77 exSwapRoom).1.triviaQuestions = exBatchB
    ∧ (nextTriviaQuestion 0 77 exSwapRoom).1.nextBatchQuestions = none
    ∧ (nextTriviaQuestion 0 77 exSwapRoom).1.currentQuestionIndex = 1
    ∧ Event.newQuestion 12 10 ∈ (nextTriviaQuestion 0 77 exSwapRoom).2.1
    ∧ Event.newQuestion 11 10 ∉ (nextTriviaQuestion 0 77 exSwapRoom).2.1 := by
  decide

/-- **C6** (code bug).  The `submit-answer` handler appends every valid
submission to `pendingAnswers` unconditionally (server.js:1463): a
second submission by the same participant for the same live question
yields two buffered entries for that participant, instead of the
overwrite the claim states. -/
theorem submit_twice_duplicate_buffer_bug :
    ((submitAnswer 1 1 1 6 (submitAnswer 1 1 0 7 exRoom).1).1.pendingAnswers.filter
      (fun a => a.userId = 1 ∧ a.questionId = 1)).length = 2 := by
  decide

/-- Counterexample to **C7** as stated: in `exRoom` a per-question
countdown is started (handle 77) by `nextTriviaQuestion`, which stores
the handle only in a local variable — never on the room record
(server.js:1833).  When the last participant then leaves, the room is
deleted and teardown clears only `timerInterval`/`breakTimerInterval`
(here handle 5), so the question interval's handle 77 is not among the
canceled handles: a scheduled per-question tick survives room removal
and keeps broadcasting its countdown. -/
theorem question_timer_survives_teardown :
    (nextTriviaQuestion 0 77 exRoom).2.2.2 = some 77
    ∧ (leaveRoom 1 (nextTriviaQuestion 0 77 exRoom).1).1 = none
    ∧ 77 ∉ (leaveRoom 1 (nextTriviaQuestion 0 77 exRoom).1).2.1 := by
  decide

/-- **C7** (corrected).  When the last participant leaves or
disconnects, the room is removed from the registry and the interval
handles *stored on the room record* (phase tick, break tick) are
canceled; conversely the room is removed only when no participant
remains.  (The per-question interval and the reveal delay are not
tracked on the room and are not canceled — see
`question_timer_survives_teardown`; their handlers are made harmless for
a deleted room, see C10.) -/
theorem room_teardown_semantics (room : Room) (sid : Nat) :
    (sid = room.host → room.participants.filter (fun p => p.id ≠ sid) = [] →
      leaveRoom sid room =
        (none, room.timerInterval.toList ++ room.breakTimerInterval.toList, []))
    ∧ ((leaveRoom sid room).1 = none →
        room.participants.filter (fun p => p.id ≠ sid) = [])
    ∧ (hostInv room → room.participants ≠ [] →
        room.participants.filter (fun p => p.id ≠ sid) = [] →
        (leaveRoom sid room).1 = none)
    ∧ (sid = room.host → room.participants.any (fun p => p.id = sid) →
      room.participants.eraseP (fun p => p.id = sid) = [] →
      handleDisconnectRoom sid room =
        (none, room.timerInterval.toList ++ room.breakTimerInterval.toList, []))
    ∧ ((handleDisconnectRoom sid room).1 = none →
        room.participants.eraseP (fun p => p.id = sid) = []) :=
  ⟨(leaveRoom_teardown room sid).1, (leaveRoom_teardown room sid).2.1,
   (leaveRoom_teardown room sid).2.2, (disconnect_teardown room sid).1,
   (disconnect_teardown room sid).2⟩

/-- Witness for **C7**: in `exRoom` the sole participant (the host, id 1)
leaves; the room is deleted and exactly the stored break-interval
handle 5 is cleared. -/
theorem room_teardown_semantics_witness :
    leaveRoom 1 exRoom = (none, [5], []) := by
  have := (room_teardown_semantics exRoom 1).1 rfl (by decide)
  simpa using this

/-- **C8** (confirmed).  A room with participants has exactly one host
(`hostInv`), and every membership-touching operation preserves this:
room creation establishes it; joining preserves it; leaving preserves it
(when the room survives), with the departing host replaced
deterministically by the earliest-joined remaining participant (the head
of the remaining join-ordered list); disconnection preserves it for
participant lists with distinct connection ids; and question resolution
(score updates) preserves it. -/
theorem host_uniqueness_preserved (room : Room) (sid uid : Nat) (uname : String)
    (st : Settings) (tl : Nat) (cq : Question) :
    hostInv (createRoom uid uname st tl)
    ∧ (room.participants ≠ [] → hostInv room → hostInv (joinRoom uid uname room).1)
    ∧ (hostInv room → ∀ r', (leaveRoom sid room).1 = some r' → hostInv r')
    ∧ (sid = room.host →
        ∀ p0 t0, room.participants.filter (fun p => p.id ≠ sid) = p0 :: t0 →
          (leaveRoom sid room).1 =
            some { room with participants := { p0 with isHost := true } :: t0,
                             host := p0.id })
    ∧ ((room.participants.map fun p => p.id).Nodup → hostInv room →
        ∀ r', (handleDisconnectRoom sid room).1 = some r' → hostInv r')
    ∧ (hostInv room → hostInv (resolveQuestion room cq).1) :=
  ⟨hostInv_createRoom uid uname st tl,
   fun hne h => hostInv_joinRoom room uid uname hne h,
   fun h => hostInv_leaveRoom room sid h,
   fun hhost p0 t0 hrem => leaveRoom_host_determinism room sid hhost p0 t0 hrem,
   fun hnd h => hostInv_disconnect room sid hnd h,
   fun h => hostInv_resolveQuestion room cq h⟩

/-- Witness for **C8**: the host of `exTwoRoom` leaves; the earliest
remaining joiner (id 2) becomes the unique host, and the host invariant
holds for the surviving room. -/
theorem host_uniqueness_preserved_witness :
    hostInv exTwoRoom
    ∧ (∃ r', (leaveRoom 1 exTwoRoom).1 = some r' ∧ hostInv r' ∧ r'.host = 2) := by
  refine ⟨fun _ => rfl, ⟨_, rfl, ?_, by decide⟩⟩
  exact (host_uniqueness_preserved exTwoRoom 1 3 "c" { studyTime := 1500, breakTime := 300 }
    10 exQ0).2.2.1 (fun _ => rfl) _ rfl

/-- **C9** (confirmed).  `start-timer`, `pause-timer` and `skip-timer`
are no-ops — no state change, no broadcast, no error reply — both for a
room id absent from the registry and for a requester who is not the
room's host. -/
theorem timer_controls_noop (sid : Nat) (nowMs : Int) (fresh : Nat) (room : Room) :
    startTimer sid nowMs fresh none = (none, [])
    ∧ pauseTimer sid nowMs none = (none, [])
    ∧ skipTimer sid none = (none, [])
    ∧ (sid ≠ room.host →
        startTimer sid nowMs fresh (some room) = (some room, [])
        ∧ pauseTimer sid nowMs (some room) = (some room, [])
        ∧ skipTimer sid (some room) = (some room, [])) := by
  refine ⟨rfl, rfl, rfl, ?_⟩
  intro hnh
  refine ⟨?_, ?_, ?_⟩ <;> simp [startTimer, pauseTimer, skipTimer, hnh]

/-- Witness for **C9**: connection 2 (not the host of `exRoom`) gets
silent no-ops from all three controls. -/
theorem timer_controls_noop_witness :
    startTimer 2 0 9 (some exRoom) = (some exRoom, [])
    ∧ pauseTimer 2 0 (some exRoom) = (some exRoom, [])
    ∧ skipTimer 2 (some exRoom) = (some exRoom, []) :=
  (timer_controls_noop 2 0 9 exRoom).2.2.2 (by decide)

/-- `exRoom` with `currentQuestionIndex` pointing past the batch: the
question recorded for a dangling timer no longer exists. -/
def exStaleRoom : Room := { exRoom with currentQuestionIndex := 99 }

/-- **C10** (confirmed, implicit).  A per-question timer that expires
after its room was deleted (registry `none`), or after the question at
the recorded index no longer exists, reveals nothing, changes no score
and schedules no further `AdvanceQuestion` — the tick's only residual
effect is the per-second countdown broadcast it always emits. -/
theorem orphan_expiry_noop (room : Room) (t : Int) :
    questionTimerExpiry none = (none, [])
    ∧ (questionAt room = none → questionTimerExpiry (some room) = (some room, []))
    ∧ (t - 1 ≤ 0 → questionIntervalTick none t =
        (t - 1, none, [Event.questionTimerUpdate (t - 1)], true))
    ∧ (t - 1 ≤ 0 → questionAt room = none → questionIntervalTick (some room) t =
        (t - 1, some room, [Event.questionTimerUpdate (t - 1)], true)) := by
  refine ⟨rfl, ?_, ?_, ?_⟩
  · intro hq
    simp [questionTimerExpiry, hq]
  · intro ht
    simp [questionIntervalTick, if_pos ht, questionTimerExpiry]
    omega
  · intro ht hq
    simp [questionIntervalTick, if_pos ht, questionTimerExpiry, hq]
    omega

/-- Witness for **C10** on the deleted-registry and stale-index cases at
`t = 1`. -/
theorem orphan_expiry_noop_witness :
    questionTimerExpiry (some exStaleRoom) = (some exStaleRoom, [])
    ∧ questionIntervalTick none 1 = (0, none, [Event.questionTimerUpdate 0], true)
    ∧ questionIntervalTick (some exStaleRoom) 1 =
        (0, some exStaleRoom, [Event.questionTimerUpdate 0], true) :=
  ⟨(orphan_expiry_noop exStaleRoom 1).2.1 (by decide),
   by simpa using (orphan_expiry_noop exStaleRoom 1).2.2.1 (by decide),
   by simpa using (orphan_expiry_noop exStaleRoom 1).2.2.2 (by decide) (by decide)⟩

end StudyBreak
